import Mathlib

/-!
Verification development for the multi-bot Google Drive backup service
(`send-to-google-drive.py`).  The Python source is shallowly embedded:
pure computations (retention selection, zip-tree walking, timestamp
naming) become Lean functions, and the effectful cycle (`do_backup`,
`run`) becomes a function from an environment of step outcomes to the
trace of performed actions.
-/

/-- A remote backup container as seen by `delete_old_backups_by_count`:
the Drive listing returns `files(id,name,createdTime)`; only the id and
the creation time matter for selection, times modelled as naturals. -/
structure RemoteEntry where
  id : Nat
  createdTime : Nat
deriving DecidableEq, Repr

/-- A local backup directory as seen by `clean_local_backups`: a
subdirectory of `local_backup_root`, keyed by `os.path.getctime`. -/
structure LocalEntry where
  id : Nat
  ctime : Nat
deriving DecidableEq, Repr

/-- Python slice `l[:stop]` for an arbitrary (possibly negative)
integer `stop`: a negative stop counts from the end, clipped at 0. -/
def pySliceTo {α : Type} (l : List α) (stop : Int) : List α :=
  if stop < 0 then l.take ((l.length : Int) + stop).toNat else l.take stop.toNat

/-- Python slice `l[start:]` for an arbitrary (possibly negative)
integer `start`: a negative start counts from the end, clipped at 0. -/
def pySliceFrom {α : Type} (l : List α) (start : Int) : List α :=
  if start < 0 then l.drop ((l.length : Int) + start).toNat else l.drop start.toNat

/-- Comparison used by `files.sort(key=lambda f: f["createdTime"])`. -/
def remoteLe (a b : RemoteEntry) : Prop := a.createdTime ≤ b.createdTime

instance : DecidableRel remoteLe := fun a b => Nat.decLe a.createdTime b.createdTime

instance : IsTotal RemoteEntry remoteLe := ⟨fun a b => Nat.le_total a.createdTime b.createdTime⟩

instance : IsTrans RemoteEntry remoteLe := ⟨fun _ _ _ => Nat.le_trans⟩

/-- Comparison used by `subs.sort(key=..., reverse=True)`: descending
creation time (Python's `reverse=True` is a stable descending sort, as
is insertion sort with this relation). -/
def localGe (a b : LocalEntry) : Prop := b.ctime ≤ a.ctime

instance : DecidableRel localGe := fun a b => Nat.decLe b.ctime a.ctime

instance : IsTotal LocalEntry localGe := ⟨fun a b => Nat.le_total b.ctime a.ctime⟩

instance : IsTrans LocalEntry localGe := ⟨fun _ _ _ h h' => Nat.le_trans h' h⟩

/-- `files.sort(key=lambda f: f["createdTime"])`: stable ascending sort. -/
def sortRemoteAsc (l : List RemoteEntry) : List RemoteEntry := List.insertionSort remoteLe l

/-- Selection performed by `delete_old_backups_by_count`:
`files.sort(...)` ascending, then `to_delete = files[:-self.drive_keep]`. -/
def selectForRemoteDeletion (entries : List RemoteEntry) (keep : Int) : List RemoteEntry :=
  pySliceTo (sortRemoteAsc entries) (-keep)

/-- `subs.sort(key=lambda p: os.path.getctime(p), reverse=True)`. -/
def sortLocalDesc (l : List LocalEntry) : List LocalEntry := List.insertionSort localGe l

/-- Selection performed by `clean_local_backups`:
descending sort, then `to_remove = subs[self.local_keep:]`. -/
def selectForLocalDeletion (entries : List LocalEntry) (keep : Int) : List LocalEntry :=
  pySliceFrom (sortLocalDesc entries) keep

theorem take_sortRemoteAsc_subperm (entries : List RemoteEntry) (n : Nat) :
    List.Subperm ((sortRemoteAsc entries).take n) entries :=
  List.Subperm.trans (List.Sublist.subperm (List.take_sublist n _))
    (List.Perm.subperm (List.perm_insertionSort remoteLe entries))

theorem take_sortRemoteAsc_min (entries : List RemoteEntry) (n : Nat) :
    ∀ a ∈ (sortRemoteAsc entries).take n, ∀ b ∈ entries,
      b ∉ (sortRemoteAsc entries).take n → a.createdTime ≤ b.createdTime := by
  intro a ha b hb hbn
  have hbs : b ∈ sortRemoteAsc entries :=
    ((List.perm_insertionSort remoteLe entries).mem_iff).mpr hb
  rw [← List.take_append_drop n (sortRemoteAsc entries)] at hbs
  rcases List.mem_append.mp hbs with h | h
  · exact absurd h hbn
  · have hs : List.Pairwise remoteLe (sortRemoteAsc entries) :=
      List.sorted_insertionSort remoteLe entries
    rw [← List.take_append_drop n (sortRemoteAsc entries)] at hs
    exact (List.pairwise_append.mp hs).2.2 a ha b h

theorem length_sortRemoteAsc (entries : List RemoteEntry) :
    (sortRemoteAsc entries).length = entries.length :=
  (List.perm_insertionSort remoteLe entries).length_eq

/-- C1 (amended): `delete_old_backups_by_count` sorts remote entries by
creation time ascending and, for `keepCount >= 1`, selects the oldest
`len - keepCount` entries (empty when `keepCount >= len`); however for
`keepCount = 0` the Python slice `files[:-0]` is empty (not the full
list), and for `keepCount < 0` the slice `files[:-keepCount]` selects
only the oldest `min(-keepCount, len)` entries. -/
theorem selectForRemoteDeletion_spec (entries : List RemoteEntry) (keep : Int) :
    List.Subperm (selectForRemoteDeletion entries keep) entries
    ∧ (∀ a ∈ selectForRemoteDeletion entries keep, ∀ b ∈ entries,
        b ∉ selectForRemoteDeletion entries keep → a.createdTime ≤ b.createdTime)
    ∧ (selectForRemoteDeletion entries keep).length =
        (if 0 < keep then entries.length - keep.toNat
         else if keep = 0 then 0
         else min (-keep).toNat entries.length) := by
  obtain ⟨m, hm⟩ : ∃ m, selectForRemoteDeletion entries keep = (sortRemoteAsc entries).take m := by
    unfold selectForRemoteDeletion pySliceTo
    split
    · exact ⟨_, rfl⟩
    · exact ⟨_, rfl⟩
  refine ⟨?_, ?_, ?_⟩
  · rw [hm]; exact take_sortRemoteAsc_subperm entries m
  · rw [hm]; exact take_sortRemoteAsc_min entries m
  · unfold selectForRemoteDeletion pySliceTo
    have hlen := length_sortRemoteAsc entries
    split_ifs <;> rw [List.length_take, hlen] <;> omega

/-- C1 witness: the minimality clause evaluated at two concrete remote
entries with `keepCount = 1`: the selected entry is at most as recent
as the retained one. -/
theorem selectForRemoteDeletion_spec_witness :
    (⟨0, 10⟩ : RemoteEntry).createdTime ≤ (⟨1, 20⟩ : RemoteEntry).createdTime :=
  (selectForRemoteDeletion_spec [⟨0, 10⟩, ⟨1, 20⟩] 1).2.1
    ⟨0, 10⟩ (by decide) ⟨1, 20⟩ (by decide) (by decide)

/-- C1 counterexample: with two remote entries and `keepCount = 0` the
code selects nothing, while the claim demands the full list. -/
theorem selectForRemoteDeletion_keep_zero_empty :
    selectForRemoteDeletion [⟨0, 10⟩, ⟨1, 20⟩] 0 = []
    ∧ ([⟨0, 10⟩, ⟨1, 20⟩] : List RemoteEntry) ≠ [] := by
  constructor
  · decide
  · decide

theorem drop_sortLocalDesc_subperm (entries : List LocalEntry) (n : Nat) :
    List.Subperm ((sortLocalDesc entries).drop n) entries :=
  List.Subperm.trans (List.Sublist.subperm (List.drop_sublist n _))
    (List.Perm.subperm (List.perm_insertionSort localGe entries))

theorem drop_sortLocalDesc_min (entries : List LocalEntry) (n : Nat) :
    ∀ a ∈ (sortLocalDesc entries).drop n, ∀ b ∈ entries,
      b ∉ (sortLocalDesc entries).drop n → a.ctime ≤ b.ctime := by
  intro a ha b hb hbn
  have hbs : b ∈ sortLocalDesc entries :=
    ((List.perm_insertionSort localGe entries).mem_iff).mpr hb
  rw [← List.take_append_drop n (sortLocalDesc entries)] at hbs
  rcases List.mem_append.mp hbs with h | h
  · have hs : List.Pairwise localGe (sortLocalDesc entries) :=
      List.sorted_insertionSort localGe entries
    rw [← List.take_append_drop n (sortLocalDesc entries)] at hs
    exact (List.pairwise_append.mp hs).2.2 b h a ha
  · exact absurd h hbn

theorem length_sortLocalDesc (entries : List LocalEntry) :
    (sortLocalDesc entries).length = entries.length :=
  (List.perm_insertionSort localGe entries).length_eq

/-- C2 (amended): `clean_local_backups` sorts local entries by creation
time descending and, for `keepCount >= 0`, selects exactly the entries
at positions `>= keepCount` (all of them when `keepCount = 0`, none when
`keepCount >= len`); however for `keepCount < 0` the Python slice
`subs[keepCount:]` selects only the oldest `min(-keepCount, len)`
entries, not all of them. -/
theorem selectForLocalDeletion_spec (entries : List LocalEntry) (keep : Int) :
    List.Subperm (selectForLocalDeletion entries keep) entries
    ∧ (∀ a ∈ selectForLocalDeletion entries keep, ∀ b ∈ entries,
        b ∉ selectForLocalDeletion entries keep → a.ctime ≤ b.ctime)
    ∧ (0 ≤ keep → selectForLocalDeletion entries keep = (sortLocalDesc entries).drop keep.toNat)
    ∧ (selectForLocalDeletion entries keep).length =
        (if 0 ≤ keep then entries.length - keep.toNat
         else min (-keep).toNat entries.length) := by
  obtain ⟨m, hm⟩ : ∃ m, selectForLocalDeletion entries keep = (sortLocalDesc entries).drop m := by
    unfold selectForLocalDeletion pySliceFrom
    split
    · exact ⟨_, rfl⟩
    · exact ⟨_, rfl⟩
  refine ⟨?_, ?_, ?_, ?_⟩
  · rw [hm]; exact drop_sortLocalDesc_subperm entries m
  · rw [hm]; exact drop_sortLocalDesc_min entries m
  · intro hk
    unfold selectForLocalDeletion pySliceFrom
    split
    · omega
    · rfl
  · unfold selectForLocalDeletion pySliceFrom
    have hlen := length_sortLocalDesc entries
    split_ifs <;> rw [List.length_drop, hlen] <;> omega

/-- C2 witness: the positional clause of the amended claim evaluated at
two concrete entries with `keepCount = 1`. -/
theorem selectForLocalDeletion_spec_witness :
    selectForLocalDeletion [⟨0, 10⟩, ⟨1, 20⟩] 1 = (sortLocalDesc [⟨0, 10⟩, ⟨1, 20⟩]).drop 1 :=
  (selectForLocalDeletion_spec [⟨0, 10⟩, ⟨1, 20⟩] 1).2.2.1 (by decide)

/-- C2 counterexample: with two local entries and `keepCount = -1` the
code deletes only the single oldest entry, while the claim demands that
all entries be selected. -/
theorem selectForLocalDeletion_negative_keep_not_all :
    selectForLocalDeletion [⟨0, 10⟩, ⟨1, 20⟩] (-1) = [⟨0, 10⟩]
    ∧ (⟨1, 20⟩ : LocalEntry) ∉ selectForLocalDeletion [⟨0, 10⟩, ⟨1, 20⟩] (-1) := by
  constructor
  · decide
  · decide

/-- Python `fname.endswith(ext)`: suffix test on the character data. -/
def pyEndsWith (s sfx : String) : Bool := sfx.data.isSuffixOf s.data

/-- Test used in `custom_zip_folder`:
`any(fname.endswith(ext) for ext in self.excluded_extensions)`. -/
def fileExcluded (E : List String) (fname : String) : Bool :=
  E.any fun e => pyEndsWith fname e

mutual
/-- A directory of the source tree: its plain files and subdirectories,
mirroring the `(root, dirs, files)` view that `os.walk` yields. -/
inductive FsDir where
  | mk (files : List String) (subdirs : FsSubdirs) : FsDir
/-- Named subdirectories of a directory, in walk order. -/
inductive FsSubdirs where
  | nil : FsSubdirs
  | cons (name : String) (d : FsDir) (tl : FsSubdirs) : FsSubdirs
end

mutual
/-- Arcnames written by the `os.walk` loop of `custom_zip_folder`: the
current directory's files are written (those failing the extension
filter), then each subdirectory surviving
`dirs[:] = [d for d in dirs if d not in self.excluded_folders]`
is walked with the extended relative prefix.  An arcname is the
`os.path.relpath` component list. -/
def zipWalkDir (F E : List String) (pre : List String) : FsDir → List (List String)
  | .mk files subs =>
    (files.filter (fun f => !fileExcluded E f)).map (fun f => pre ++ [f])
      ++ zipWalkSubs F E pre subs
/-- Walk of the surviving subdirectories; a subdirectory whose name is
in `F` is pruned entirely, its contents never visited. -/
def zipWalkSubs (F E : List String) (pre : List String) : FsSubdirs → List (List String)
  | .nil => []
  | .cons n d tl =>
    (if F.contains n then [] else zipWalkDir F E (pre ++ [n]) d) ++ zipWalkSubs F E pre tl
end

mutual
/-- All files of a tree with their relative directory path: the
specification-side enumeration, unaware of any exclusion. -/
def allFilesDir : FsDir → List (List String × String)
  | .mk files subs => files.map (fun f => ((([] : List String), f))) ++ allFilesSubs subs
/-- All files under a list of named subdirectories. -/
def allFilesSubs : FsSubdirs → List (List String × String)
  | .nil => []
  | .cons n d tl => (allFilesDir d).map (fun p => (n :: p.1, p.2)) ++ allFilesSubs tl
end

/-- The specification's inclusion condition: no directory component of
the relative path is an excluded folder name, and the file name does not
end with an excluded extension. -/
def includedFile (F E : List String) (p : List String × String) : Bool :=
  p.1.all (fun c => !F.contains c) && !fileExcluded E p.2

theorem includedFile_root (F E : List String) (f : String) :
    includedFile F E ([], f) = !fileExcluded E f := by
  simp [includedFile]

theorem includedFile_cons (F E : List String) (n : String) (p : List String × String)
    (h : n ∉ F) :
    includedFile F E (n :: p.1, p.2) = includedFile F E p := by
  simp [includedFile, h]

theorem includedFile_cons_pruned (F E : List String) (n : String) (p : List String × String)
    (h : n ∈ F) :
    includedFile F E (n :: p.1, p.2) = false := by
  simp [includedFile, h]

theorem filterRoot_files (F E : List String) (pre : List String) (files : List String) :
    ((files.map (fun f => ((([] : List String), f)))).filter
        (includedFile F E)).map (fun p => pre ++ p.1 ++ [p.2])
      = (files.filter (fun f => !fileExcluded E f)).map (fun f => pre ++ [f]) := by
  induction files with
  | nil => rfl
  | cons f fs ih =>
    cases hf : fileExcluded E f <;>
      simp_all [List.filter_cons, includedFile_root]

theorem filterSub_kept (F E : List String) (n : String) (pre : List String)
    (h : n ∉ F) (l : List (List String × String)) :
    ((l.map (fun p => ((n :: p.1, p.2) : List String × String))).filter
        (includedFile F E)).map (fun p => pre ++ p.1 ++ [p.2])
      = (l.filter (includedFile F E)).map (fun p => (pre ++ [n]) ++ p.1 ++ [p.2]) := by
  induction l with
  | nil => rfl
  | cons p ps ih =>
    cases hp : includedFile F E p <;>
      simp_all [List.filter_cons, includedFile_cons F E n p h, List.append_assoc]

theorem filterSub_pruned (F E : List String) (n : String)
    (h : n ∈ F) (l : List (List String × String)) :
    (l.map (fun p => ((n :: p.1, p.2) : List String × String))).filter (includedFile F E)
      = [] := by
  induction l with
  | nil => rfl
  | cons p ps ih =>
    simp [List.filter_cons, includedFile_cons_pruned F E n p h, ih]

mutual
theorem zipWalkDir_eq (F E : List String) : ∀ (pre : List String) (t : FsDir),
    zipWalkDir F E pre t
      = ((allFilesDir t).filter (includedFile F E)).map (fun p => pre ++ p.1 ++ [p.2])
  | pre, .mk files subs => by
    rw [zipWalkDir, allFilesDir, List.filter_append, List.map_append,
      filterRoot_files F E pre files, zipWalkSubs_eq F E pre subs]
theorem zipWalkSubs_eq (F E : List String) : ∀ (pre : List String) (s : FsSubdirs),
    zipWalkSubs F E pre s
      = ((allFilesSubs s).filter (includedFile F E)).map (fun p => pre ++ p.1 ++ [p.2])
  | _, .nil => rfl
  | pre, .cons n d tl => by
    rw [zipWalkSubs, allFilesSubs, List.filter_append, List.map_append,
      zipWalkSubs_eq F E pre tl]
    by_cases hn : n ∈ F
    · rw [if_pos (by simp [hn]), filterSub_pruned F E n hn (allFilesDir d)]
      rfl
    · rw [if_neg (by simp [hn]), zipWalkDir_eq F E (pre ++ [n]) d,
        filterSub_kept F E n pre hn (allFilesDir d)]
end

/-- C7: the artifact produced by `custom_zip_folder` contains exactly
the files of the source tree whose relative path passes through no
directory named in the excluded-folder set and whose name ends with no
excluded extension, each stored under its path relative to the source
directory; pruned subdirectories contribute nothing. -/
theorem custom_zip_folder_contents (F E : List String) (t : FsDir) :
    zipWalkDir F E [] t
      = ((allFilesDir t).filter (includedFile F E)).map (fun p => p.1 ++ [p.2]) := by
  rw [zipWalkDir_eq F E [] t]
  simp

/-- Sanity check of the walk on a small concrete tree: `b.log` is
filtered by extension and `node_modules` is pruned entirely. -/
theorem zipWalk_sanity :
    zipWalkDir ["node_modules"] [".log"] []
        (.mk ["a.txt", "b.log"]
          (.cons "node_modules" (.mk ["x"] .nil)
            (.cons "src" (.mk ["c.py"] .nil) .nil)))
      = [["a.txt"], ["src", "c.py"]] := by
  decide

/-- Error raised by the archiving step. -/
inductive ZipError where
  | sourceNotFound
deriving DecidableEq, Repr

/-- Filesystem state relevant to one `custom_zip_folder` call: whether a
file currently exists at `zip_path`, and the source tree (`none` models
`os.path.isdir(abs_src)` being false: missing, or not a directory). -/
structure ZipFsState where
  zipExists : Bool
  sourceTree : Option FsDir

/-- `custom_zip_folder`: first removes any pre-existing artifact at
`zip_path`, then checks `os.path.isdir` and raises `FileNotFoundError`
when the check fails; otherwise writes the artifact holding the walked
entries. -/
def customZipFolder (F E : List String) (fs : ZipFsState) :
    ZipFsState × Except ZipError (List (List String)) :=
  match fs.sourceTree with
  | none => ({ fs with zipExists := false }, Except.error ZipError.sourceNotFound)
  | some t => ({ fs with zipExists := true }, Except.ok (zipWalkDir F E [] t))

/-- C8: a call on a missing (or non-directory) source fails with
`SourceNotFound` and leaves no artifact at the destination path, even
when an old artifact existed there before the call. -/
theorem custom_zip_folder_source_missing (F E : List String) (fs : ZipFsState)
    (h : fs.sourceTree = none) :
    (customZipFolder F E fs).2 = Except.error ZipError.sourceNotFound
    ∧ ((customZipFolder F E fs).1).zipExists = false := by
  unfold customZipFolder
  rw [h]
  exact ⟨rfl, rfl⟩

/-- C8 witness: the failure evaluated on a concrete state that held an
old artifact. -/
theorem custom_zip_folder_source_missing_witness :
    (customZipFolder [] [] ⟨true, none⟩).2 = Except.error ZipError.sourceNotFound
    ∧ ((customZipFolder [] [] ⟨true, none⟩).1).zipExists = false :=
  custom_zip_folder_source_missing [] [] ⟨true, none⟩ rfl

/-- Error raised by one deletion inside a pruning pass: `notFound`
models an HTTP 404 from `service.files().delete(...)`, `other` any
other failure (for instance an `OSError` out of `shutil.rmtree`). -/
inductive DelErr where
  | notFound
  | other
deriving DecidableEq, Repr

/-- Observable actions of one scheduler thread, in trace order. -/
inductive Event where
  | madeLocalDir
  | logStart
  | zipped
  | authed
  | createdRemote
  | uploaded
  | localDeleted (entry : Nat)
  | remoteDeleted (entry : Nat)
  | logError
  | logEnd
  | logOuterError
  | slept
deriving DecidableEq, Repr

/-- The deletion loop shared by `clean_local_backups` and
`delete_old_backups_by_count`: each selected entry is deleted in turn
with no per-entry exception handling, so a failing deletion raises out
of the loop at once.  `res i` is the outcome of deleting entry `i`
(`none` is success); the result is the per-entry success events and the
raised error, if any. -/
def pruneDeleteLoop (res : Nat → Option DelErr) (mk : Nat → Event) :
    List Nat → List Event × Option DelErr
  | [] => ([], none)
  | i :: rest =>
    match res i with
    | some e => ([], some e)
    | none =>
      let step := pruneDeleteLoop res mk rest
      (mk i :: step.1, step.2)

/-- C4 (amended): pruning deletion is not best-effort: exactly the
longest all-successful prefix of the selection is deleted, and the
first failure — a remote `NotFound` exactly like any other error —
raises out of the loop, so the remaining selected entries are never
attempted; the error propagates to `do_backup`'s cycle-level handler. -/
theorem pruneDeleteLoop_spec (res : Nat → Option DelErr) (mk : Nat → Event) (l : List Nat) :
    pruneDeleteLoop res mk l
      = ((l.takeWhile (fun i => (res i).isNone)).map mk,
         match l.dropWhile (fun i => (res i).isNone) with
         | [] => none
         | j :: _ => res j) := by
  induction l with
  | nil => rfl
  | cons i rest ih =>
    cases hr : res i with
    | none => simp [pruneDeleteLoop, List.takeWhile_cons, List.dropWhile_cons, hr, ih]
    | some e => simp [pruneDeleteLoop, List.takeWhile_cons, List.dropWhile_cons, hr]

/-- C4 counterexample: with two selected entries where the first
deletion fails with `NotFound`, the error is not skipped as benign but
propagates, and the second deletion is never attempted. -/
theorem pruneDeleteLoop_not_best_effort :
    pruneDeleteLoop (fun i => if i = 0 then some DelErr.notFound else none)
        Event.localDeleted [0, 1]
      = ([], some DelErr.notFound)
    ∧ Event.localDeleted 1
        ∉ (pruneDeleteLoop (fun i => if i = 0 then some DelErr.notFound else none)
            Event.localDeleted [0, 1]).1 := by
  constructor
  · rfl
  · decide

/-- The single `service.files().list(...)` request of
`delete_old_backups_by_count`: one unpaginated call with
`pageSize=1000`, returning the first at-most-1000 containers the remote
store holds for the parent; no `nextPageToken` loop follows it. -/
def listContainersPage (server : List RemoteEntry) (pageSize : Nat) : List RemoteEntry :=
  server.take pageSize

/-- The containers `delete_old_backups_by_count` chooses to delete: the
retention selection applied to the single 1000-capped page. -/
def deleteOldSelection (server : List RemoteEntry) (keep : Int) : List RemoteEntry :=
  selectForRemoteDeletion (listContainersPage server 1000) keep

/-- C10: remote pruning considers only the single 1000-capped page:
every container selected for deletion lies among the first 1000
returned for the parent, so containers outside that page are never
selected in the cycle. -/
theorem deleteOldSelection_capped (server : List RemoteEntry) (keep : Int)
    (e : RemoteEntry) (he : e ∈ deleteOldSelection server keep) :
    e ∈ server.take 1000 := by
  have h1 : e ∈ sortRemoteAsc (listContainersPage server 1000) := by
    unfold deleteOldSelection selectForRemoteDeletion pySliceTo at he
    split at he
    · exact List.take_subset _ _ he
    · exact List.take_subset _ _ he
  exact ((List.perm_insertionSort remoteLe (listContainersPage server 1000)).mem_iff).mp h1

/-- C10 witness: a concrete server listing and keep count where the
selection is nonempty and inside the first page. -/
theorem deleteOldSelection_capped_witness :
    (⟨0, 5⟩ : RemoteEntry) ∈ deleteOldSelection [⟨0, 5⟩] (-1)
    ∧ (⟨0, 5⟩ : RemoteEntry) ∈ ([⟨0, 5⟩] : List RemoteEntry).take 1000 :=
  ⟨by decide, deleteOldSelection_capped [⟨0, 5⟩] (-1) ⟨0, 5⟩ (by decide)⟩

/-- Environment of one `do_backup` invocation: the outcome of every
effectful step and the listings this cycle sees.  `localDelRes` and
`remoteDelRes` give, per entry id, the outcome of its deletion. -/
structure CycleEnv where
  makedirsOk : Bool
  zipOk : Bool
  authOk : Bool
  createOk : Bool
  uploadOk : Bool
  localEntries : List LocalEntry
  localKeep : Int
  serverEntries : List RemoteEntry
  driveKeep : Int
  localDelRes : Nat → Option DelErr
  remoteDelRes : Nat → Option DelErr

/-- Entry ids `clean_local_backups` selects in this environment. -/
def localSelection (env : CycleEnv) : List Nat :=
  (selectForLocalDeletion env.localEntries env.localKeep).map LocalEntry.id

/-- Entry ids `delete_old_backups_by_count` selects in this
environment. -/
def remoteSelection (env : CycleEnv) : List Nat :=
  (deleteOldSelection env.serverEntries env.driveKeep).map RemoteEntry.id

/-- Body of `do_backup`'s `try:` block: archive, authenticate, create
the Drive folder, upload, then local and remote pruning; the first
failing step raises (second component `true`) and later steps never
run. -/
def tryBody (env : CycleEnv) : List Event × Bool :=
  if !env.zipOk then ([], true)
  else if !env.authOk then ([Event.zipped], true)
  else if !env.createOk then ([Event.zipped, Event.authed], true)
  else if !env.uploadOk then ([Event.zipped, Event.authed, Event.createdRemote], true)
  else
    let before := [Event.zipped, Event.authed, Event.createdRemote, Event.uploaded]
    let lstep := pruneDeleteLoop env.localDelRes Event.localDeleted (localSelection env)
    match lstep.2 with
    | some _ => (before ++ lstep.1, true)
    | none =>
      let rstep := pruneDeleteLoop env.remoteDelRes Event.remoteDeleted (remoteSelection env)
      (before ++ lstep.1 ++ rstep.1, rstep.2.isSome)

/-- `do_backup`: naming and `os.makedirs(local_folder)` run before the
`try:` block, so an error there escapes to the caller with nothing
logged for the cycle; any error inside the `try:` is caught and logged
and the cycle-end marker is still written, after which `do_backup`
returns normally. -/
def doBackup (env : CycleEnv) : List Event × Bool :=
  if !env.makedirsOk then ([], true)
  else
    let body := tryBody env
    ([Event.madeLocalDir, Event.logStart] ++ body.1
      ++ (if body.2 then [Event.logError] else []) ++ [Event.logEnd], false)

/-- C3: if archiving, authentication, remote-folder creation or upload
fails, neither pruning pass runs in that cycle: the trace holds no
local and no remote deletion. -/
theorem doBackup_no_prune_on_early_abort (env : CycleEnv)
    (h : env.zipOk = false ∨ env.authOk = false ∨ env.createOk = false
      ∨ env.uploadOk = false) (i : Nat) :
    Event.localDeleted i ∉ (doBackup env).1
    ∧ Event.remoteDeleted i ∉ (doBackup env).1 := by
  cases hm : env.makedirsOk <;> cases hz : env.zipOk <;> cases ha : env.authOk <;>
    cases hc : env.createOk <;> cases hu : env.uploadOk <;>
      simp_all [doBackup, tryBody]

/-- Concrete environment whose only failure is the upload step. -/
def envUploadFails : CycleEnv :=
  ⟨true, true, true, true, false, [], 2, [], 2, fun _ => none, fun _ => none⟩

/-- C3 witness: in the concrete failed-upload cycle no deletion with
entry id 0 is traced. -/
theorem doBackup_no_prune_on_early_abort_witness :
    Event.localDeleted 0 ∉ (doBackup envUploadFails).1
    ∧ Event.remoteDeleted 0 ∉ (doBackup envUploadFails).1 :=
  doBackup_no_prune_on_early_abort envUploadFails (Or.inr (Or.inr (Or.inr rfl))) 0

/-- Concrete environment whose only failure is `os.makedirs`. -/
def envMakedirsFails : CycleEnv :=
  ⟨false, true, true, true, true, [], 2, [], 2, fun _ => none, fun _ => none⟩

/-- C5 counterexample: when `os.makedirs(local_folder)` fails — it runs
before the `try:` block — the error escapes `do_backup` and no
cycle-end marker is logged. -/
theorem doBackup_raises_on_makedirs_failure :
    (doBackup envMakedirsFails).2 = true
    ∧ Event.logEnd ∉ (doBackup envMakedirsFails).1 := by
  constructor
  · rfl
  · simp [doBackup, envMakedirsFails]

/-- C5 (amended): whenever the pre-`try` `os.makedirs` step succeeds,
`do_backup` catches every error of its guarded steps — archiving
through pruning — never raises to the scheduler, and logs the cycle-end
marker as its final action; only a failure of the local folder creation
itself escapes. -/
theorem doBackup_catches_inside_try (env : CycleEnv) (h : env.makedirsOk = true) :
    (doBackup env).2 = false ∧ (doBackup env).1.getLast? = some Event.logEnd := by
  unfold doBackup
  rw [h]
  refine ⟨rfl, ?_⟩
  show ([Event.madeLocalDir, Event.logStart] ++ (tryBody env).1
      ++ (if (tryBody env).2 then [Event.logError] else []) ++ [Event.logEnd]).getLast?
    = some Event.logEnd
  exact List.getLast?_concat _

/-- C5 witness: the amended claim evaluated on the concrete
failed-upload cycle. -/
theorem doBackup_catches_inside_try_witness :
    (doBackup envUploadFails).2 = false
    ∧ (doBackup envUploadFails).1.getLast? = some Event.logEnd :=
  doBackup_catches_inside_try envUploadFails rfl

/-- One iteration of `run`'s `while True:` loop: `do_backup` inside the
defensive `try`, whose `except` logs any error escaping `do_backup`,
then the unconditional `time.sleep(interval)`. -/
def runIteration (env : CycleEnv) : List Event :=
  let cycle := doBackup env
  cycle.1 ++ (if cycle.2 then [Event.logOuterError] else []) ++ [Event.slept]

/-- Trace of the first `n` iterations of the `run` loop; it is defined
for every `n` because no iteration can abort the loop. -/
def runTrace (envs : Nat → CycleEnv) : Nat → List (List Event)
  | 0 => []
  | n + 1 => runTrace envs n ++ [runIteration (envs n)]

/-- A failed cycle: `do_backup` raised, or it logged a cycle error. -/
def cycleFailed (env : CycleEnv) : Prop :=
  (doBackup env).2 = true ∨ Event.logError ∈ (doBackup env).1

theorem runTrace_length (envs : Nat → CycleEnv) : ∀ n, (runTrace envs n).length = n := by
  intro n
  induction n with
  | zero => rfl
  | succ n ih => simp [runTrace, ih]

/-- C6: the scheduler loop never terminates: after any number `N` of
consecutive cycle failures it still performs the `(N+1)`-th iteration,
and that iteration, like every one, ends by sleeping for the configured
interval. -/
theorem run_loop_survives (envs : Nat → CycleEnv) (N : Nat)
    (h : ∀ k < N, cycleFailed (envs k)) :
    (runTrace envs (N + 1)).length = N + 1
    ∧ (runTrace envs (N + 1)).getLast? = some (runIteration (envs N))
    ∧ (runIteration (envs N)).getLast? = some Event.slept := by
  refine ⟨runTrace_length envs (N + 1), ?_, ?_⟩
  · show (runTrace envs N ++ [runIteration (envs N)]).getLast? = some (runIteration (envs N))
    exact List.getLast?_concat _
  · show ((doBackup (envs N)).1
        ++ (if (doBackup (envs N)).2 then [Event.logOuterError] else []) ++ [Event.slept]).getLast?
      = some Event.slept
    exact List.getLast?_concat _

/-- C6 witness: two consecutive raising cycles (failed `makedirs`), and
the loop still runs a third iteration. -/
theorem run_loop_survives_witness :
    (runTrace (fun _ => envMakedirsFails) 3).length = 3
    ∧ (runTrace (fun _ => envMakedirsFails) 3).getLast?
        = some (runIteration envMakedirsFails)
    ∧ (runIteration envMakedirsFails).getLast? = some Event.slept :=
  run_loop_survives (fun _ => envMakedirsFails) 2 (fun _ _ => Or.inl rfl)

/-- A timestamp as `datetime.now()` / `datetime.utcnow()` present it:
calendar fields plus Python's `weekday()` (0 = Monday). -/
structure PyDateTime where
  year : Nat
  month : Nat
  day : Nat
  hour : Nat
  minute : Nat
  second : Nat
  weekday : Nat
deriving DecidableEq, Repr

/-- French weekday names of `do_backup`, indexed by `weekday()`. -/
def jours : List String :=
  ["lundi", "mardi", "mercredi", "jeudi", "vendredi", "samedi", "dimanche"]

/-- French month names of `do_backup`, indexed by `month - 1`. -/
def mois : List String :=
  ["janvier", "février", "mars", "avril", "mai", "juin",
   "juillet", "août", "septembre", "octobre", "novembre", "décembre"]

/-- Python `%02d` formatting: two zero-padded decimal digits. -/
def pad2 (n : Nat) : List Char := [Nat.digitChar (n / 10), Nat.digitChar (n % 10)]

/-- `strftime` `%Y` for years below 10000: four zero-padded digits. -/
def pad4 (n : Nat) : List Char :=
  [Nat.digitChar (n / 1000 % 10), Nat.digitChar (n / 100 % 10),
   Nat.digitChar (n / 10 % 10), Nat.digitChar (n % 10)]

/-- The local folder name built by `do_backup`:
`f"{jours[wd]}-{day:02d}-{mois[month-1]}-{year}-{hour:02d}h{minute:02d}"`
— note that the second does not occur: minute resolution only. -/
def localName (t : PyDateTime) : List Char :=
  (jours.getD t.weekday "").data ++ ['-'] ++ pad2 t.day ++ ['-']
    ++ (mois.getD (t.month - 1) "").data ++ ['-'] ++ (toString t.year).data ++ ['-']
    ++ pad2 t.hour ++ ['h'] ++ pad2 t.minute

/-- The artifact file name built by `do_backup`:
`zip_name = f"{self.zip_prefix}_{utc:%Y%m%d_%H%M%S}.zip"` — second
resolution. -/
def zipName (pfx : List Char) (t : PyDateTime) : List Char :=
  pfx ++ ['_'] ++ pad4 t.year ++ pad2 t.month ++ pad2 t.day ++ ['_']
    ++ pad2 t.hour ++ pad2 t.minute ++ pad2 t.second ++ ".zip".data

/-- Bounds every real timestamp satisfies (weaker than the calendar
ones), enough for the padded rendering to be injective. -/
abbrev validTime (t : PyDateTime) : Prop :=
  t.year < 10000 ∧ t.month < 100 ∧ t.day < 100
    ∧ t.hour < 100 ∧ t.minute < 100 ∧ t.second < 100

theorem digitChar_inj : ∀ a < 10, ∀ b < 10,
    (Nat.digitChar a = Nat.digitChar b → a = b) := by
  decide

theorem pad2_inj {a b : Nat} (ha : a < 100) (hb : b < 100) (h : pad2 a = pad2 b) :
    a = b := by
  simp only [pad2, List.cons.injEq, and_true] at h
  have d1 := digitChar_inj (a / 10) (by omega) (b / 10) (by omega) h.1
  have d2 := digitChar_inj (a % 10) (by omega) (b % 10) (by omega) h.2
  omega

theorem pad4_inj {a b : Nat} (ha : a < 10000) (hb : b < 10000) (h : pad4 a = pad4 b) :
    a = b := by
  simp only [pad4, List.cons.injEq, and_true] at h
  have d1 := digitChar_inj (a / 1000 % 10) (by omega) (b / 1000 % 10) (by omega) h.1
  have d2 := digitChar_inj (a / 100 % 10) (by omega) (b / 100 % 10) (by omega) h.2.1
  have d3 := digitChar_inj (a / 10 % 10) (by omega) (b / 10 % 10) (by omega) h.2.2.1
  have d4 := digitChar_inj (a % 10) (by omega) (b % 10) (by omega) h.2.2.2
  omega

theorem pad2_length (n : Nat) : (pad2 n).length = 2 := rfl

theorem pad4_length (n : Nat) : (pad4 n).length = 4 := rfl

/-- C9 (amended): the artifact file name carries the timestamp at
second resolution, so for one bot (one `zip_prefix`) two cycles whose
wall-clock timestamps differ in any field — in particular in the
second — never produce colliding artifact names; the local folder name,
by contrast, only carries minute resolution (see the counterexample). -/
theorem zipName_inj (pfx : List Char) (t1 t2 : PyDateTime)
    (h1 : validTime t1) (h2 : validTime t2) (h : zipName pfx t1 = zipName pfx t2) :
    t1.year = t2.year ∧ t1.month = t2.month ∧ t1.day = t2.day
    ∧ t1.hour = t2.hour ∧ t1.minute = t2.minute ∧ t1.second = t2.second := by
  obtain ⟨hy1, hmo1, hd1, hh1, hmi1, hs1⟩ := h1
  obtain ⟨hy2, hmo2, hd2, hh2, hmi2, hs2⟩ := h2
  unfold zipName at h
  obtain ⟨h8, -⟩ := List.append_inj' h rfl
  obtain ⟨h7, hs⟩ := List.append_inj' h8 rfl
  obtain ⟨h6, hmi⟩ := List.append_inj' h7 rfl
  obtain ⟨h5, hh⟩ := List.append_inj' h6 rfl
  obtain ⟨h4, -⟩ := List.append_inj' h5 rfl
  obtain ⟨h3, hd⟩ := List.append_inj' h4 rfl
  obtain ⟨h2m, hmo⟩ := List.append_inj' h3 rfl
  obtain ⟨-, hy⟩ := List.append_inj' h2m rfl
  exact ⟨pad4_inj hy1 hy2 hy, pad2_inj hmo1 hmo2 hmo, pad2_inj hd1 hd2 hd,
    pad2_inj hh1 hh2 hh, pad2_inj hmi1 hmi2 hmi, pad2_inj hs1 hs2 hs⟩

/-- C9 witness: the artifact-name injectivity applied at a concrete
valid timestamp. -/
theorem zipName_inj_witness :
    (⟨2025, 3, 10, 14, 30, 5, 0⟩ : PyDateTime).second
      = (⟨2025, 3, 10, 14, 30, 5, 0⟩ : PyDateTime).second :=
  (zipName_inj [] ⟨2025, 3, 10, 14, 30, 5, 0⟩ ⟨2025, 3, 10, 14, 30, 5, 0⟩
    (by decide) (by decide) rfl).2.2.2.2.2

/-- C9 counterexample: two timestamps in the same minute but at
distinct wall-clock seconds yield the same local folder name, so the
local folder name is not second-resolution and collides. -/
theorem localName_minute_collision :
    (⟨2025, 3, 10, 14, 30, 5, 0⟩ : PyDateTime).second
      ≠ (⟨2025, 3, 10, 14, 30, 47, 0⟩ : PyDateTime).second
    ∧ localName ⟨2025, 3, 10, 14, 30, 5, 0⟩ = localName ⟨2025, 3, 10, 14, 30, 47, 0⟩ := by
  constructor
  · decide
  · rfl
